import Mathlib

/-!
Shallow embedding of the MilaMart Labs storefront logic (src/main.py):
the catalog loader (`get_products`), the search filter (`filter_products`),
the JSON API endpoints (`/api/products`, `/api/products/search`) and the
chat matcher (`/api/chat`).  Strings are modelled as `List Char`, Python
floats (prices, ratings) as `ℚ`, JSON payloads as an inductive `Json`.
-/

namespace MilaMart

/-- Convert a Lean string literal to the `List Char` representation used
throughout the embedding. -/
def s2l (s : String) : List Char := s.data

/-- ASCII lowercase of a whole string, modelling Python `str.lower()` on the
ASCII inputs relevant here. -/
def lowerL (s : List Char) : List Char := s.map Char.toLower

/-- `isSubstring q s` models Python `q in s` on strings: `q` occurs as a
contiguous substring of `s`. -/
def isSubstring : List Char → List Char → Bool
  | q, [] => q.isEmpty
  | q, c :: rest => q.isPrefixOf (c :: rest) || isSubstring q rest

/-- One step of Python `str.title()`: uppercase a letter that follows a
non-letter, lowercase a letter that follows a letter. The `Bool` argument
records whether the previous character was a letter. -/
def titleCaseGo : List Char → Bool → List Char
  | [], _ => []
  | c :: rest, prevAlpha =>
    (if c.isAlpha then (if prevAlpha then c.toLower else c.toUpper) else c)
      :: titleCaseGo rest c.isAlpha

/-- Python `str.title()` (ASCII model). -/
def titleCase (s : List Char) : List Char := titleCaseGo s false

/-- Decimal digit test (Python `\d` on ASCII). -/
def isDigitC (c : Char) : Bool := 48 ≤ c.toNat && c.toNat ≤ 57

/-- Value of the leading maximal digit run of `l` (the greedy `\d+` group). -/
def digitRunVal (l : List Char) : Nat :=
  (l.takeWhile isDigitC).foldl (fun a c => 10 * a + (c.toNat - 48)) 0

/-- Decimal rendering of a natural number, modelling Python `str(int)`;
fuel-driven so the recursion is structural. -/
def natToStrGo : Nat → Nat → List Char → List Char
  | 0, _, acc => acc
  | fuel + 1, n, acc =>
    let d : Char := Char.ofNat (48 + n % 10)
    if n < 10 then d :: acc else natToStrGo fuel (n / 10) (d :: acc)

/-- Python `str(n)` for a natural number `n`. -/
def natToStr (n : Nat) : List Char := natToStrGo (n + 1) n []

/-- Whitespace test for Python `str.split()`. -/
def isWs (c : Char) : Bool := c = ' ' || c = '\t' || c = '\n' || c = '\r'

/-- Worker for Python `str.split()`: `acc` holds the current word reversed. -/
def splitWsGo : List Char → List Char → List (List Char)
  | [], acc => if acc.isEmpty then [] else [acc.reverse]
  | c :: rest, acc =>
    if isWs c then
      if acc.isEmpty then splitWsGo rest [] else acc.reverse :: splitWsGo rest []
    else splitWsGo rest (c :: acc)

/-- Python `str.split()` with no argument: split on whitespace runs, no empty
words. -/
def splitWs (s : List Char) : List (List Char) := splitWsGo s []

/-- A raw record of the upstream catalog
(`{id, title, category, brand?, price, description, rating, stock, thumbnail}`). -/
structure RawProduct where
  id : Nat
  title : List Char
  category : List Char
  brand : Option (List Char)
  price : ℚ
  description : List Char
  rating : ℚ
  stock : Nat
  thumbnail : List Char
deriving DecidableEq

/-- A normalized catalog entry as built by `get_products` in src/main.py. -/
structure Product where
  id : List Char
  name : List Char
  brand : List Char
  category : List Char
  price : ℚ
  description : List Char
  rating : ℚ
  stock : Nat
  image : List Char
deriving DecidableEq

/-- `EXCLUDED_CATEGORIES` of src/main.py. -/
def EXCLUDED_CATEGORIES : List (List Char) :=
  [ s2l "groceries", s2l "kitchen-accessories" ]

/-- `HOME_DECO_BRANDS` of src/main.py. -/
def HOME_DECO_BRANDS : List (List Char) :=
  [ s2l "IKEA", s2l "West Elm", s2l "HAY", s2l "Muuto", s2l "Ferm Living",
    s2l "Menu", s2l "&Tradition", s2l "Normann Copenhagen", s2l "Hay",
    s2l "Vitra" ]

/-- `p["category"] in EXCLUDED_CATEGORIES`. -/
def isExcluded (r : RawProduct) : Bool := r.category ∈ EXCLUDED_CATEGORIES

/-- `p.get("brand") or ""`: a missing brand becomes the empty string. -/
def rawBrandStr (r : RawProduct) : List Char :=
  match r.brand with
  | none => []
  | some b => b

/-- The guard `p["category"] == "home-decoration" and not brand` of the
loader: a home-decoration record whose source brand is missing or empty. -/
def hdMissing (r : RawProduct) : Bool :=
  (r.category = s2l "home-decoration") && (rawBrandStr r).isEmpty

/-- `p["category"].replace("-", " ").title()`. -/
def normalizeCategory (c : List Char) : List Char :=
  titleCase (c.map fun ch => if ch = '-' then ' ' else ch)

/-- The dict literal appended by the loader for one raw record, given the
brand the loop computed for it. -/
def mkProduct (r : RawProduct) (brand : List Char) : Product :=
  { id := natToStr r.id
    name := r.title
    brand := brand
    category := normalizeCategory r.category
    price := r.price
    description := r.description
    rating := r.rating
    stock := r.stock
    image := r.thumbnail }

/-- The normalization loop of `get_products` (src/main.py lines 45-67): the
`Nat` argument is the running `home_deco_idx` counter. -/
def loadCatalog : List RawProduct → Nat → List Product
  | [], _ => []
  | r :: rest, idx =>
    if isExcluded r then loadCatalog rest idx
    else if hdMissing r then
      mkProduct r (HOME_DECO_BRANDS.getD (idx % HOME_DECO_BRANDS.length) [])
        :: loadCatalog rest (idx + 1)
    else
      mkProduct r (rawBrandStr r) :: loadCatalog rest idx

/-- The keyword test of `filter_products`: lowercased query occurs in
lowercased name, description, category or brand. -/
def matchesKeyword (q : List Char) (p : Product) : Bool :=
  isSubstring q (lowerL p.name) || isSubstring q (lowerL p.description) ||
  isSubstring q (lowerL p.category) || isSubstring q (lowerL p.brand)

/-- `filter_products(products, query, category)` of src/main.py. -/
def filterProducts (products : List Product) (query category : List Char) :
    List Product :=
  let results :=
    if query.isEmpty then products
    else products.filter fun p => matchesKeyword (lowerL query) p
  if category.isEmpty then results
  else results.filter fun p => lowerL p.category = lowerL category

/-- JSON values, used to state the exact shape of the endpoint responses. -/
inductive Json where
  | str : List Char → Json
  | num : ℚ → Json
  | nat : Nat → Json
  | arr : List Json → Json
  | obj : List (List Char × Json) → Json

/-- Keys of a JSON object (empty for non-objects). -/
def jKeys : Json → List (List Char)
  | .obj kvs => kvs.map (·.1)
  | _ => []

/-- First-match lookup in a key/value list. -/
def lookupKV : List (List Char × Json) → List Char → Option Json
  | [], _ => none
  | (k, v) :: rest, key => if k = key then some v else lookupKV rest key

/-- Field lookup in a JSON object. -/
def jGet : Json → List Char → Option Json
  | .obj kvs, key => lookupKV kvs key
  | _, _ => none

/-- Length of a JSON array wrapped in `Option` (0 otherwise). -/
def jLen : Option Json → Nat
  | some (.arr l) => l.length
  | _ => 0

/-- The JSON rendering of a full catalog entry, as returned by
`GET /api/products`. -/
def productJson (p : Product) : Json :=
  Json.obj
    [ (s2l "id", .str p.id), (s2l "name", .str p.name),
      (s2l "brand", .str p.brand), (s2l "category", .str p.category),
      (s2l "price", .num p.price), (s2l "description", .str p.description),
      (s2l "rating", .num p.rating), (s2l "stock", .nat p.stock),
      (s2l "image", .str p.image) ]

/-- The trimmed "slim" product rendering of `GET /api/products/search`
(description cut at 100 characters, derived `url`). -/
def slimJson (p : Product) : Json :=
  Json.obj
    [ (s2l "id", .str p.id), (s2l "name", .str p.name),
      (s2l "brand", .str p.brand), (s2l "category", .str p.category),
      (s2l "price", .num p.price), (s2l "rating", .num p.rating),
      (s2l "stock", .nat p.stock),
      (s2l "description", .str (p.description.take 100)),
      (s2l "image", .str p.image),
      (s2l "url",
        .str (s2l "https://milamart-labs.onrender.com/product/" ++ p.id)) ]

/-- Response of `GET /api/products` (`get_all_products` in src/main.py):
`{"total": len(products), "products": products[:limit]}`. -/
def allProductsResponse (catalog : List Product) (limit : Nat) : Json :=
  Json.obj
    [ (s2l "total", .nat catalog.length),
      (s2l "products", .arr ((catalog.take limit).map productJson)) ]

/-- Response of `GET /api/products/search` (`search_products` in src/main.py):
filter, truncate at `min(max_results, 10)`, slim down, and return
`{"total": len(slim), "products": slim}`. -/
def searchResponse (catalog : List Product) (query category : List Char)
    (maxResults : Nat) : Json :=
  let results := (filterProducts catalog query category).take (min maxResults 10)
  let slim := results.map slimJson
  Json.obj [ (s2l "total", .nat slim.length), (s2l "products", .arr slim) ]

/-- The chat stopword set of src/main.py. -/
def stopwords : List (List Char) :=
  [ s2l "show", s2l "me", s2l "find", s2l "get", s2l "i", s2l "want",
    s2l "need", s2l "looking", s2l "for", s2l "some", s2l "a", s2l "an",
    s2l "the", s2l "please", s2l "can", s2l "you", s2l "have", s2l "do",
    s2l "what", s2l "any", s2l "is", s2l "are", s2l "with", s2l "under",
    s2l "over", s2l "cheap", s2l "best", s2l "good" ]

/-- Keyword extraction of the chat endpoint: lowercase, split on whitespace,
drop stopwords and words of length ≤ 2. -/
def tokenizeMsg (msg : List Char) : List (List Char) :=
  (splitWs (lowerL msg)).filter fun w => w ∉ stopwords && 2 < w.length

/-- One keyword hit: `kw` occurs in lowercased name, category, brand or
description. -/
def kwMatches (kw : List Char) (p : Product) : Bool :=
  isSubstring kw (lowerL p.name) || isSubstring kw (lowerL p.category) ||
  isSubstring kw (lowerL p.brand) || isSubstring kw (lowerL p.description)

/-- The chat score of a product: how many keywords hit it. -/
def scoreP (kws : List (List Char)) (p : Product) : Nat :=
  kws.countP fun kw => kwMatches kw p

/-- Insert a scored element in front of the first element whose score is not
larger; together with `stableSortDesc` this is the input/output behaviour of
Python's stable `list.sort(key=lambda x: -x[0])`. -/
def insertByScore {α : Type} (x : Nat × α) : List (Nat × α) → List (Nat × α)
  | [] => [x]
  | y :: ys => if y.1 ≤ x.1 then x :: y :: ys else y :: insertByScore x ys

/-- Stable descending sort on the first (score) component. -/
def stableSortDesc {α : Type} : List (Nat × α) → List (Nat × α)
  | [] => []
  | x :: xs => insertByScore x (stableSortDesc xs)

/-- The keyword pass of the chat endpoint for a given token list: keep
positively scored products, sort stably by descending score, keep the top 4. -/
def chatRank (catalog : List Product) (kws : List (List Char)) : List Product :=
  let scored := (catalog.filter fun p => 0 < scoreP kws p).map
    fun p => (scoreP kws p, p)
  ((stableSortDesc scored).take 4).map Prod.snd

/-- Steps 1-4 of the chat endpoint: `matched` after the keyword pass (empty
when no keywords survive tokenization). -/
def keywordMatched (catalog : List Product) (msg : List Char) : List Product :=
  let kws := tokenizeMsg msg
  if kws.isEmpty then [] else chatRank catalog kws

/-- Is there a decimal digit at the head of the list? -/
def hasDigitAt : List Char → Bool
  | [] => false
  | c :: _ => isDigitC c

/-- `re.search(r"under \$(\d+)", s)`: leftmost occurrence of `under $`
followed by at least one digit; the group value is the greedy digit run. -/
def priceSearch : List Char → Option Nat
  | [] => none
  | c :: rest =>
    if (s2l "under $").isPrefixOf (c :: rest) && hasDigitAt ((c :: rest).drop 7)
    then some (digitRunVal ((c :: rest).drop 7))
    else priceSearch rest

/-- The price bound extracted from `req.message.lower()`. -/
def priceLimit (msg : List Char) : Option Nat := priceSearch (lowerL msg)

/-- The product list of the chat endpoint before the no-match fallback:
keyword pass, then the optional price re-filter over
`(matched or products)`, truncated to 4. -/
def chatProducts (catalog : List Product) (msg : List Char) : List Product :=
  let matched := keywordMatched catalog msg
  match priceLimit msg with
  | some n =>
    ((if matched.isEmpty then catalog else matched).filter
      fun p => p.price ≤ (n : ℚ)).take 4
  | none => matched

/-- The two reply shapes of the chat endpoint: the "I found N products"
reply (naming up to two candidates), and the generic "no exact match"
suggestion reply. -/
inductive ChatReply where
  | found : List (List Char) → Nat → ChatReply
  | noMatch : ChatReply
deriving DecidableEq

/-- The chat endpoint (`POST /api/chat`): the `sample` argument stands for
`random.sample` (any pseudo-random selection function); the history argument
is part of the request body but the handler never reads it. -/
def chatRespond (catalog : List Product) (msg : List Char)
    (_hist : List (List Char)) (sample : List Product → Nat → List Product) :
    ChatReply × List Product :=
  let matched := chatProducts catalog msg
  if matched.isEmpty then
    (ChatReply.noMatch, sample catalog (min 3 catalog.length))
  else
    (ChatReply.found ((matched.take 2).map (·.name)) matched.length, matched)

/-! ### Specification-side definitions

These follow the spec's words and are compared against the source
embeddings above. -/

/-- Bucket presentation of a stable descending sort on the first component:
all elements of score `n` first (in list order), then score `n-1`, ... down
to score `0`. -/
def pairBuckets {α : Type} (l : List (Nat × α)) : Nat → List (Nat × α)
  | 0 => l.filter fun y => y.1 = 0
  | n + 1 => (l.filter fun y => y.1 = n + 1) ++ pairBuckets l n

/-- Product-level buckets: the products of `l` with chat score exactly `n`
(in `l`'s order), then score `n-1`, ... down to score `0`. This is the
spec's "sort candidates by descending score, stable on ties — original
catalog order preserved for equal scores". -/
def prodBuckets (kws : List (List Char)) (l : List Product) : Nat → List Product
  | 0 => l.filter fun p => scoreP kws p = 0
  | n + 1 => (l.filter fun p => scoreP kws p = n + 1) ++ prodBuckets kws l n

/-- Spec-side loader: for each non-excluded record the brand of a
home-decoration record with no source brand is
`HOME_DECO_BRANDS[c % len]` where `c` is the number of *prior* (source
order) home-decoration records missing a brand; `prior` accumulates the
records already processed. -/
def loadCatalogSpec : List RawProduct → List RawProduct → List Product
  | _, [] => []
  | prior, r :: rest =>
    if isExcluded r then loadCatalogSpec (prior ++ [r]) rest
    else
      mkProduct r
        (if hdMissing r then
          HOME_DECO_BRANDS.getD
            ((prior.filter hdMissing).length % HOME_DECO_BRANDS.length) []
        else rawBrandStr r)
      :: loadCatalogSpec (prior ++ [r]) rest

/-! ### Concrete fixtures used by witnesses and counterexamples -/

/-- A deterministic stand-in for one possible outcome of `random.sample`. -/
def takeSample (l : List Product) (k : Nat) : List Product := l.take k

/-- A fixture product priced beyond typical chat price bounds. -/
def pExpensive : Product :=
  { id := s2l "9", name := s2l "Gold Watch", brand := s2l "Lux",
    category := s2l "Watches", price := 1000, description := s2l "shiny",
    rating := 5, stock := 3, image := [] }

/-- A cheap fixture product. -/
def pCheap : Product :=
  { id := s2l "2", name := s2l "Soap Bar", brand := [],
    category := s2l "Beauty", price := 10, description := s2l "clean",
    rating := 4, stock := 7, image := [] }

/-- A two-product fixture catalog. -/
def wCatalog2 : List Product := [ pCheap, pExpensive ]

/-- Generic fixture product number `i`. -/
def mkFixture (i : Nat) : Product :=
  { id := natToStr i, name := s2l "Item", brand := [],
    category := s2l "Stuff", price := 1, description := [],
    rating := 1, stock := 0, image := [] }

/-- Eleven products, all matched by an empty search filter. -/
def cexCatalog11 : List Product := (List.range 11).map mkFixture

/-- A raw fixture record. -/
def mkRawFixture (i : Nat) (cat : List Char) : RawProduct :=
  { id := i, title := s2l "Thing", category := cat, brand := none,
    price := 5, description := [], rating := 2, stock := 1, thumbnail := [] }

/-- Two raw records sharing the upstream id 7. -/
def cexRawDup : List RawProduct :=
  [ mkRawFixture 7 (s2l "beauty"), mkRawFixture 7 (s2l "fragrances") ]

/-- Two raw records with distinct upstream ids. -/
def wRawDistinct : List RawProduct :=
  [ mkRawFixture 3 (s2l "beauty"), mkRawFixture 4 (s2l "groceries"),
    mkRawFixture 5 (s2l "fragrances") ]

/-- A raw record whose category is spelled with a space instead of the
hyphen: it normalizes to "Home Decoration" but receives no brand. -/
def cexRawSpace : RawProduct := mkRawFixture 1 (s2l "home decoration")

/-- A raw home-decoration record without a source brand. -/
def wRawHomeDeco : List RawProduct :=
  [ mkRawFixture 1 (s2l "home-decoration"),
    mkRawFixture 2 (s2l "home-decoration") ]

/-! ### Loader lemmas -/

/-- An excluded record (groceries / kitchen-accessories) is never a
home-decoration record. -/
theorem isExcluded_hdMissing {r : RawProduct} (h : isExcluded r = true) :
    hdMissing r = false := by
  have hmem : r.category = s2l "groceries" ∨
      r.category = s2l "kitchen-accessories" := by
    have := h
    simp [isExcluded, EXCLUDED_CATEGORIES] at this
    exact this
  have hne : r.category ≠ s2l "home-decoration" := by
    rcases hmem with hc | hc <;> rw [hc] <;> decide
  simp [hdMissing, hne]

/-- The loader skips excluded records without touching the brand counter:
loading `raw` is loading the non-excluded records. -/
theorem loadCatalog_filter_excluded (raw : List RawProduct) (idx : Nat) :
    loadCatalog raw idx = loadCatalog (raw.filter fun r => !isExcluded r) idx := by
  induction raw generalizing idx with
  | nil => rfl
  | cons r rest ih =>
    cases hx : isExcluded r with
    | true => simp [loadCatalog, hx, List.filter_cons, ih]
    | false =>
      cases hd : hdMissing r with
      | true => simp [loadCatalog, hx, hd, List.filter_cons, ih]
      | false => simp [loadCatalog, hx, hd, List.filter_cons, ih]

/-- The loader emits exactly one product per non-excluded raw record. -/
theorem loadCatalog_length (raw : List RawProduct) (idx : Nat) :
    (loadCatalog raw idx).length =
      (raw.filter fun r => !isExcluded r).length := by
  induction raw generalizing idx with
  | nil => rfl
  | cons r rest ih =>
    cases hx : isExcluded r with
    | true => simp [loadCatalog, hx, List.filter_cons, ih]
    | false =>
      cases hd : hdMissing r with
      | true => simp [loadCatalog, hx, hd, List.filter_cons, ih]
      | false => simp [loadCatalog, hx, hd, List.filter_cons, ih]

/-- The ids of the loaded catalog are the stringified upstream ids of the
non-excluded raw records, in source order. -/
theorem loadCatalog_ids (raw : List RawProduct) (idx : Nat) :
    (loadCatalog raw idx).map (·.id) =
      (raw.filter fun r => !isExcluded r).map fun r => natToStr r.id := by
  induction raw generalizing idx with
  | nil => rfl
  | cons r rest ih =>
    cases hx : isExcluded r with
    | true => simp [loadCatalog, hx, List.filter_cons, ih]
    | false =>
      cases hd : hdMissing r with
      | true => simp [loadCatalog, hx, hd, List.filter_cons, ih, mkProduct]
      | false => simp [loadCatalog, hx, hd, List.filter_cons, ih, mkProduct]

/-- The incremental `home_deco_idx` counter of the loader equals the count
of already-seen home-decoration records missing a brand. -/
theorem loadCatalog_eq_spec (raw : List RawProduct) (prior : List RawProduct) :
    loadCatalog raw (prior.filter hdMissing).length = loadCatalogSpec prior raw := by
  induction raw generalizing prior with
  | nil => rfl
  | cons r rest ih =>
    cases hx : isExcluded r with
    | true =>
      have hd := isExcluded_hdMissing hx
      have hcount : ((prior ++ [r]).filter hdMissing).length =
          (prior.filter hdMissing).length := by
        simp [List.filter_append, List.filter_cons, hd]
      rw [loadCatalog, loadCatalogSpec]
      simp only [hx, if_true]
      rw [← hcount, ih]
    | false =>
      cases hd : hdMissing r with
      | true =>
        have hcount : ((prior ++ [r]).filter hdMissing).length =
            (prior.filter hdMissing).length + 1 := by
          simp [List.filter_append, List.filter_cons, hd]
        rw [loadCatalog, loadCatalogSpec]
        simp only [hx, hd, if_true, Bool.false_eq_true, if_false]
        rw [← hcount, ih]
      | false =>
        have hcount : ((prior ++ [r]).filter hdMissing).length =
            (prior.filter hdMissing).length := by
          simp [List.filter_append, List.filter_cons, hd]
        rw [loadCatalog, loadCatalogSpec]
        simp only [hx, hd, Bool.false_eq_true, if_false]
        rw [← hcount, ih]

/-! ### C1: catalog ids -/

/-- C1 (amended): the loader performs no deduplication — the cached ids are
exactly the stringified ids of the non-excluded raw records, in source
order; in particular the cached ids are pairwise distinct whenever those
stringified source ids are. -/
theorem c1_loader_ids (raw : List RawProduct) (idx : Nat) :
    (loadCatalog raw idx).map (·.id) =
      (raw.filter fun r => !isExcluded r).map (fun r => natToStr r.id) ∧
    (((raw.filter fun r => !isExcluded r).map fun r => natToStr r.id).Pairwise
        (· ≠ ·) →
      ((loadCatalog raw idx).map (·.id)).Pairwise (· ≠ ·)) := by
  refine ⟨loadCatalog_ids raw idx, fun h => ?_⟩
  rw [loadCatalog_ids raw idx]
  exact h

/-- C1 witness: on a concrete raw input with distinct ids, the cached ids
are pairwise distinct. -/
theorem c1_loader_ids_witness :
    ((wRawDistinct.filter fun r => !isExcluded r).map fun r =>
        natToStr r.id).Pairwise (· ≠ ·) ∧
    ((loadCatalog wRawDistinct 0).map (·.id)).Pairwise (· ≠ ·) :=
  ⟨by decide, (c1_loader_ids wRawDistinct 0).2 (by decide)⟩

/-- C1 counterexample: two raw records share upstream id 7; the loader
caches both, so the cached ids are not pairwise distinct. -/
theorem c1_duplicate_ids_cex :
    (loadCatalog cexRawDup 0).map (·.id) = [ s2l "7", s2l "7" ] ∧
    ¬ ((loadCatalog cexRawDup 0).map (·.id)).Pairwise (· ≠ ·) := by
  constructor
  · decide
  · decide

/-! ### C7: excluded categories -/

/-- C7: no raw record with category in the exclusion set contributes a
Product: loading `raw` equals loading only its non-excluded records, and
exactly one Product exists per non-excluded record. -/
theorem c7_excluded_dropped (raw : List RawProduct) (idx : Nat) :
    loadCatalog raw idx = loadCatalog (raw.filter fun r => !isExcluded r) idx ∧
    (loadCatalog raw idx).length =
      (raw.filter fun r => !isExcluded r).length :=
  ⟨loadCatalog_filter_excluded raw idx, loadCatalog_length raw idx⟩

/-! ### C4: home-decoration brand assignment -/

/-- C4 (amended): the loader agrees with the spec-side loader — a
home-decoration record with no source brand receives
`HOME_DECO_BRANDS[c % 10]` where `c` counts prior home-decoration records
missing a brand, in source order starting at 0 — and every brand in the
fixed list is non-empty (so such records end with a non-empty brand).
Products whose *raw* category merely normalizes to "Home Decoration" via a
different spelling receive no brand (see the counterexample). -/
theorem c4_home_deco_brand (raw : List RawProduct) :
    loadCatalog raw 0 = loadCatalogSpec [] raw ∧
    (∀ b ∈ HOME_DECO_BRANDS, b ≠ []) := by
  constructor
  · have := loadCatalog_eq_spec raw []
    simpa using this
  · decide

/-- C4 witness: on a concrete input of two brandless home-decoration
records, the first receives brand list entry 0 ("IKEA") and the second
entry 1 ("West Elm"). -/
theorem c4_home_deco_brand_witness :
    loadCatalog wRawHomeDeco 0 = loadCatalogSpec [] wRawHomeDeco ∧
    (s2l "IKEA") ≠ ([] : List Char) ∧
    (loadCatalog wRawHomeDeco 0).map (·.brand) =
      [ s2l "IKEA", s2l "West Elm" ] :=
  ⟨(c4_home_deco_brand wRawHomeDeco).1,
   (c4_home_deco_brand wRawHomeDeco).2 (s2l "IKEA") (by decide),
   by decide⟩

/-- C4 counterexample: a raw record with category "home decoration"
(space, not hyphen) and no brand yields a cached Product whose category is
"Home Decoration" but whose brand is empty. -/
theorem c4_home_deco_cex :
    ∃ p ∈ loadCatalog [cexRawSpace] 0,
      p.category = s2l "Home Decoration" ∧ p.brand = [] := by
  decide

/-! ### C10: GET /api/products total vs truncation -/

/-- C10: `GET /api/products` reports `total` as the size of the full cached
catalog while `products` is the first `limit` catalog items; so whenever
`limit` is smaller than the catalog, `total` exceeds the returned list's
length. -/
theorem c10_all_products_total (catalog : List Product) (limit : Nat) :
    jGet (allProductsResponse catalog limit) (s2l "total") =
      some (.nat catalog.length) ∧
    jGet (allProductsResponse catalog limit) (s2l "products") =
      some (.arr ((catalog.take limit).map productJson)) ∧
    jLen (jGet (allProductsResponse catalog limit) (s2l "products")) =
      min limit catalog.length ∧
    (limit < catalog.length →
      jLen (jGet (allProductsResponse catalog limit) (s2l "products")) <
        catalog.length) := by
  refine ⟨rfl, rfl, ?_, ?_⟩
  · show ((catalog.take limit).map productJson).length = min limit catalog.length
    simp
  · intro h
    show ((catalog.take limit).map productJson).length < catalog.length
    simp
    omega

/-- C10 witness: with a 2-product catalog and `limit = 1`, the returned
list is strictly shorter than the reported total. -/
theorem c10_all_products_total_witness :
    jLen (jGet (allProductsResponse wCatalog2 1) (s2l "products")) <
      wCatalog2.length :=
  (c10_all_products_total wCatalog2 1).2.2.2 (by decide)

/-! ### C8: GET /api/products/search response shape -/

/-- C8 (amended): the search response is exactly `{total, products[]}` —
the handler does not echo `query` or `category` back. -/
theorem c8_search_response_keys (catalog : List Product) (q c : List Char)
    (m : Nat) :
    jKeys (searchResponse catalog q c m) = [ s2l "total", s2l "products" ] :=
  rfl

/-- C8 counterexample: at a concrete request, the search response has no
`query` and no `category` field (the claimed shape `{query, category,
total, products[]}` is wrong). -/
theorem c8_search_no_echo_cex :
    jGet (searchResponse [] (s2l "phone") (s2l "Laptops") 5) (s2l "query") =
      none ∧
    jGet (searchResponse [] (s2l "phone") (s2l "Laptops") 5) (s2l "category") =
      none ∧
    jGet (searchResponse [] (s2l "phone") (s2l "Laptops") 5) (s2l "total") =
      some (.nat 0) := by
  refine ⟨rfl, rfl, rfl⟩

/-! ### C3: search truncation -/

/-- C3 (amended): the search result is the filtered products in catalog
order truncated to the first `min(max_results, 10)` items — the handler
caps the caller-supplied maximum at 10 — so exactly
`min(min(max_results, 10), number of matches)` products are returned. -/
theorem c3_search_truncation (catalog : List Product) (q c : List Char)
    (m : Nat) :
    jGet (searchResponse catalog q c m) (s2l "products") =
      some (.arr (((filterProducts catalog q c).take (min m 10)).map slimJson)) ∧
    jLen (jGet (searchResponse catalog q c m) (s2l "products")) =
      min (min m 10) (filterProducts catalog q c).length ∧
    jGet (searchResponse catalog q c m) (s2l "total") =
      some (.nat (min (min m 10) (filterProducts catalog q c).length)) := by
    refine ⟨rfl, ?_, ?_⟩
    · show (((filterProducts catalog q c).take (min m 10)).map slimJson).length = _
      simp
    · show some (Json.nat
          (((filterProducts catalog q c).take (min m 10)).map slimJson).length) = _
      simp

/-- C3 counterexample: with 11 matching products and `max_results = 12`,
the handler returns 10 products, not `min(12, 11) = 11` as the claim
states. -/
theorem c3_search_cap_cex :
    jLen (jGet (searchResponse cexCatalog11 [] [] 12) (s2l "products")) = 10 ∧
    (filterProducts cexCatalog11 [] []).length = 11 ∧
    jLen (jGet (searchResponse cexCatalog11 [] [] 12) (s2l "products")) ≠
      min 12 (filterProducts cexCatalog11 [] []).length := by
  refine ⟨by decide, by decide, by decide⟩

/-! ### C6: filter composition -/

/-- C6: with both a keyword and a category present, `filter_products`
returns exactly the intersection of the keyword-only result and the
category-only result, in catalog order. -/
theorem c6_filter_intersection (catalog : List Product) (q c : List Char)
    (hq : q ≠ []) (hc : c ≠ []) :
    filterProducts catalog q c =
      (filterProducts catalog q []).filter
        (fun p => p ∈ filterProducts catalog [] c) := by
  have hq' : q.isEmpty = false := by
    cases q with
    | nil => exact absurd rfl hq
    | cons a l => rfl
  have hc' : c.isEmpty = false := by
    cases c with
    | nil => exact absurd rfl hc
    | cons a l => rfl
  simp only [filterProducts, hq', hc', Bool.false_eq_true, if_false,
    List.isEmpty_nil, if_true]
  refine List.filter_congr fun p hp => ?_
  have hpc : p ∈ catalog := List.mem_of_mem_filter hp
  by_cases h : lowerL p.category = lowerL c
  · simp [h, List.mem_filter, hpc]
  · simp [h, List.mem_filter]

/-- C6 witness: on the two-product fixture catalog with keyword "gold" and
category "watches", the composed filter equals the intersection. -/
theorem c6_filter_intersection_witness :
    filterProducts wCatalog2 (s2l "gold") (s2l "watches") =
      (filterProducts wCatalog2 (s2l "gold") []).filter
        (fun p => p ∈ filterProducts wCatalog2 [] (s2l "watches")) :=
  c6_filter_intersection wCatalog2 (s2l "gold") (s2l "watches")
    (by decide) (by decide)

/-! ### Stable sort lemmas for the chat ranking -/

theorem pairBuckets_nil {α : Type} (n : Nat) :
    pairBuckets ([] : List (Nat × α)) n = [] := by
  induction n with
  | zero => rfl
  | succ n ih => simp [pairBuckets, ih]

theorem mem_pairBuckets {α : Type} {l : List (Nat × α)} {n : Nat}
    {y : Nat × α} (hy : y ∈ pairBuckets l n) : y ∈ l ∧ y.1 ≤ n := by
  induction n with
  | zero =>
    rw [pairBuckets] at hy
    have := List.mem_filter.mp hy
    refine ⟨this.1, ?_⟩
    have := of_decide_eq_true this.2
    omega
  | succ n ih =>
    rw [pairBuckets] at hy
    rcases List.mem_append.mp hy with h | h
    · have := List.mem_filter.mp h
      refine ⟨this.1, ?_⟩
      have := of_decide_eq_true this.2
      omega
    · have := ih h
      exact ⟨this.1, by omega⟩

theorem insertByScore_of_le {α : Type} (x : Nat × α) (m : List (Nat × α))
    (h : ∀ y ∈ m, y.1 ≤ x.1) : insertByScore x m = x :: m := by
  cases m with
  | nil => rfl
  | cons y ys => simp [insertByScore, h y (List.mem_cons_self y ys)]

theorem insertByScore_append {α : Type} (x : Nat × α)
    (m₁ m₂ : List (Nat × α)) (h : ∀ y ∈ m₁, x.1 < y.1) :
    insertByScore x (m₁ ++ m₂) = m₁ ++ insertByScore x m₂ := by
  induction m₁ with
  | nil => rfl
  | cons y ys ih =>
    have hy : x.1 < y.1 := h y (List.mem_cons_self y ys)
    have hns : ¬ (y.1 ≤ x.1) := by omega
    simp only [List.cons_append, insertByScore, hns, if_false]
    exact congrArg (fun t => y :: t)
      (ih fun z hz => h z (List.mem_cons_of_mem y hz))

theorem pairBuckets_cons_of_gt {α : Type} (x : Nat × α)
    (l : List (Nat × α)) (n : Nat) (h : n < x.1) :
    pairBuckets (x :: l) n = pairBuckets l n := by
  induction n with
  | zero =>
    have : ¬ (x.1 = 0) := by omega
    simp [pairBuckets, List.filter_cons, this]
  | succ n ih =>
    have hne : ¬ (x.1 = n + 1) := by omega
    simp only [pairBuckets, List.filter_cons, decide_eq_true_eq, hne,
      if_false]
    rw [ih (by omega)]

theorem insert_pairBuckets {α : Type} (x : Nat × α) (l : List (Nat × α))
    (n : Nat) (hx : x.1 ≤ n) :
    insertByScore x (pairBuckets l n) = pairBuckets (x :: l) n := by
  induction n with
  | zero =>
    have hx0 : x.1 = 0 := by omega
    rw [insertByScore_of_le x _ fun y hy => (mem_pairBuckets hy).2.trans (by omega)]
    simp [pairBuckets, List.filter_cons, hx0]
  | succ n ih =>
    by_cases hx1 : x.1 = n + 1
    · rw [insertByScore_of_le x _ ?hall]
      case hall =>
        intro y hy
        rw [pairBuckets] at hy
        rcases List.mem_append.mp hy with h | h
        · have := of_decide_eq_true (List.mem_filter.mp h).2
          omega
        · have := (mem_pairBuckets h).2
          omega
      have hfc : List.filter (fun y => decide (y.1 = n + 1)) (x :: l) =
          x :: List.filter (fun y => decide (y.1 = n + 1)) l := by
        simp [List.filter_cons, hx1]
      simp only [pairBuckets]
      rw [hfc, pairBuckets_cons_of_gt x l n (by omega)]
      rfl
    · have hxn : x.1 ≤ n := by omega
      rw [pairBuckets,
        insertByScore_append x _ _ ?htop, ih hxn]
      case htop =>
        intro y hy
        have := of_decide_eq_true (List.mem_filter.mp hy).2
        omega
      rw [pairBuckets, List.filter_cons]
      simp only [decide_eq_true_eq, hx1, if_false]

theorem stableSortDesc_eq_pairBuckets {α : Type} (l : List (Nat × α))
    (n : Nat) (h : ∀ y ∈ l, y.1 ≤ n) :
    stableSortDesc l = pairBuckets l n := by
  induction l with
  | nil => rw [stableSortDesc, pairBuckets_nil]
  | cons x xs ih =>
    rw [stableSortDesc,
      ih fun y hy => h y (List.mem_cons_of_mem x hy),
      insert_pairBuckets x xs n (h x (List.mem_cons_self x xs))]

theorem pairBuckets_map_snd (kws : List (List Char)) (l : List Product)
    (n : Nat) :
    (pairBuckets (l.map fun p => (scoreP kws p, p)) n).map Prod.snd =
      prodBuckets kws l n := by
  induction n with
  | zero =>
    rw [pairBuckets, prodBuckets, List.filter_map, List.map_map]
    exact List.map_id _
  | succ n ih =>
    rw [pairBuckets, prodBuckets, List.map_append, List.filter_map,
      List.map_map, ih]
    exact congrArg (· ++ prodBuckets kws l n) (List.map_id _)

/-! ### C5: chat keyword ranking -/

/-- C5: for a non-empty token list, the chat candidate set is exactly the
positively-scored products, ordered by descending score with ties in
original catalog order (score `|kws|` bucket first, then `|kws|-1`, ...),
truncated to the top 4. -/
theorem c5_chat_ranking (catalog : List Product) (kws : List (List Char))
    (_h : kws ≠ []) :
    chatRank catalog kws =
      (prodBuckets kws (catalog.filter fun p => 0 < scoreP kws p)
        kws.length).take 4 := by
  dsimp only [chatRank]
  rw [stableSortDesc_eq_pairBuckets _ kws.length ?hb]
  case hb =>
    intro y hy
    rcases List.mem_map.mp hy with ⟨p, hp, rfl⟩
    exact List.countP_le_length _
  rw [List.map_take, pairBuckets_map_snd]

/-- C5 witness: concrete two-product catalog, token list ["watch"]. -/
theorem c5_chat_ranking_witness :
    chatRank wCatalog2 [ s2l "watch" ] =
      (prodBuckets [ s2l "watch" ]
        (wCatalog2.filter fun p => 0 < scoreP [ s2l "watch" ] p) 1).take 4 :=
  c5_chat_ranking wCatalog2 [ s2l "watch" ] (by decide)

/-! ### C2: chat price constraint -/

/-- C2 (amended): when the message matches `under $<integer>` with bound
`n`, the candidate list after the price re-filter step contains only
products priced ≤ `n`, and when the keyword pass produced no candidates
the filter is applied to the full catalog, keeping the first 4 in catalog
order. (If that filtered list is empty, the endpoint's fallback replaces
it with random suggestions that need not respect the bound — see the
counterexample.) -/
theorem c2_chat_price_bound (catalog : List Product) (msg : List Char)
    (n : Nat) (h : priceLimit msg = some n) :
    (∀ p ∈ chatProducts catalog msg, p.price ≤ (n : ℚ)) ∧
    (keywordMatched catalog msg = [] →
      chatProducts catalog msg =
        (catalog.filter fun p => p.price ≤ (n : ℚ)).take 4) := by
  constructor
  · intro p hp
    simp only [chatProducts, h] at hp
    have hp' := (List.take_sublist 4 _).subset hp
    exact of_decide_eq_true (List.mem_filter.mp hp').2
  · intro hm
    simp only [chatProducts, h, hm, List.isEmpty_nil, if_true]

/-- C2 witness: catalog with a $10 and a $1000 product, message
"under $50". -/
theorem c2_chat_price_bound_witness :
    (∀ p ∈ chatProducts wCatalog2 (s2l "under $50"),
      p.price ≤ ((50 : Nat) : ℚ)) ∧
    (keywordMatched wCatalog2 (s2l "under $50") = [] →
      chatProducts wCatalog2 (s2l "under $50") =
        (wCatalog2.filter fun p => p.price ≤ ((50 : Nat) : ℚ)).take 4) :=
  c2_chat_price_bound wCatalog2 (s2l "under $50") 50 (by decide)

/-- C2 counterexample: catalog holding only a $1000 product, message
"under $500". The keyword pass and the price filter both come up empty, so
the endpoint's fallback returns a pseudo-random suggestion — here
necessarily the $1000 product — and the returned non-empty list violates
the price bound. -/
theorem c2_chat_price_cex :
    (chatRespond [ pExpensive ] (s2l "under $500") [] takeSample).2 =
      [ pExpensive ] ∧
    priceLimit (s2l "under $500") = some 500 ∧
    ¬ (pExpensive.price ≤ ((500 : Nat) : ℚ)) := by
  refine ⟨by decide, by decide, by decide⟩

/-! ### C9: empty chat message -/

/-- C9: an empty chat message (whatever the history) yields zero keywords
and an empty candidate set, and the endpoint answers on the no-match
suggestion path: the generic reply together with the pseudo-random sample
of `min(3, |catalog|)` products, non-empty whenever the catalog is. -/
theorem c9_chat_empty_message (catalog : List Product)
    (hist : List (List Char)) (sample : List Product → Nat → List Product)
    (hs : ∀ l k, (sample l k).length = min k l.length)
    (hcat : catalog ≠ []) :
    tokenizeMsg [] = [] ∧
    chatProducts catalog [] = [] ∧
    chatRespond catalog [] hist sample =
      (ChatReply.noMatch, sample catalog (min 3 catalog.length)) ∧
    (chatRespond catalog [] hist sample).2 ≠ [] := by
  have h1 : chatProducts catalog [] = [] := rfl
  have h2 : chatRespond catalog [] hist sample =
      (ChatReply.noMatch, sample catalog (min 3 catalog.length)) := by
    simp only [chatRespond, h1, List.isEmpty_nil, if_true]
  refine ⟨rfl, h1, h2, ?_⟩
  rw [h2]
  intro hnil
  dsimp only at hnil
  have hlen := hs catalog (min 3 catalog.length)
  rw [hnil] at hlen
  simp only [List.length_nil] at hlen
  have hpos : 0 < catalog.length := List.length_pos.mpr hcat
  omega

/-- C9 witness: singleton catalog, `take`-based sample. -/
theorem c9_chat_empty_message_witness :
    tokenizeMsg [] = [] ∧
    chatProducts [ pExpensive ] [] = [] ∧
    chatRespond [ pExpensive ] [] [ s2l "hi" ] takeSample =
      (ChatReply.noMatch, takeSample [ pExpensive ] (min 3 [ pExpensive ].length)) ∧
    (chatRespond [ pExpensive ] [] [ s2l "hi" ] takeSample).2 ≠ [] :=
  c9_chat_empty_message [ pExpensive ] [ s2l "hi" ] takeSample
    (fun l k => by simp [takeSample]) (by decide)

end MilaMart
